import Mathlib

/-!
Verification development for the `c_helper` trace-parsing core
(`Trace`, `regex_dict`, `run_through_regexes`, `parse_arbitrary`,
`get_status`, `lines_for_pid`).

The five fixed regular expressions of `regex_dict` (and the leading-pid
pattern used on the first log line) are transliterated into a small
regex AST (`RItem`); `genSeq` enumerates the candidate parses of a
pattern in exactly the preference order that a backtracking matcher
such as Python's `re.match` explores them (earlier alternatives first,
greedy quantifiers longest-first, lazy quantifiers shortest-first), so
the head of the candidate list is the match Python's engine returns.
Python-level runtime failures (ValueError, AttributeError, IndexError,
TypeError, the explicit `raise Exception`) are modelled with `Except`.
-/

/-- Python exception outcomes reachable in the modelled code. -/
inductive PyErr where
  | valueError
  | attributeError
  | indexError
  | typeError
  | exception (msg : String)
  | calledProcessError
deriving DecidableEq, Repr

deriving instance DecidableEq for Except

/-- The `[0-9]` character class of the patterns. -/
def isDigitChar (c : Char) : Bool := '0' ≤ c && c ≤ '9'

/-- Python's `\s` class and `str.split()` whitespace (ASCII part plus the
common one-byte Unicode whitespace; wider Unicode whitespace does not occur
in tracer output). -/
def isPySpace (c : Char) : Bool :=
  c = ' ' || c = '\t' || c = '\n' || c = '\r' || c = '\x0b' || c = '\x0c' ||
  c = '\x1c' || c = '\x1d' || c = '\x1e' || c = '\x1f' || c = '\x85' || c = '\xa0'

/-- Character classes occurring in the five patterns. -/
inductive CClass where
  | digit      -- [0-9]
  | space      -- \s
  | anyc       -- . (no DOTALL: anything but newline)
  | dashPlus   -- [-+]
  | one (c : Char)
deriving DecidableEq, Repr

def inClass : CClass → Char → Bool
  | .digit, c => isDigitChar c
  | .space, c => isPySpace c
  | .anyc, c => c ≠ '\n'
  | .dashPlus, c => c = '-' || c = '+'
  | .one ch, c => c = ch

/-- Items allowed inside a capture group; none of the five patterns nests
groups, so group bodies are sequences of single-character matchers. -/
inductive SItem where
  | cls (cc : CClass)
  | star (cc : CClass) (greedy : Bool)
  | opt (cc : CClass)
deriving DecidableEq, Repr

/-- Top-level regex items. -/
inductive RItem where
  | lit (c : Char)
  | cls (cc : CClass)
  | star (cc : CClass) (greedy : Bool)
  | opt (cc : CClass)
  | grp (n : Nat) (sub : List SItem)
  | eol
deriving DecidableEq, Repr

/-- Captures recorded during a parse: group number paired with the matched
characters. -/
abbrev Caps := List (Nat × List Char)

/-- All splits `(consumed, rest)` of `s` whose consumed part satisfies `q`
throughout, shortest first (the lazy quantifier order). -/
def starSplits (q : Char → Bool) : List Char → List (List Char × List Char)
  | [] => [([], [])]
  | c :: t =>
    ([], c :: t) :: (if q c then (starSplits q t).map (fun pr => (c :: pr.1, pr.2)) else [])

/-- Candidate parses of one in-group item, in backtracking preference
order. -/
def genS : SItem → List Char → List (List Char × List Char)
  | .cls _, [] => []
  | .cls cc, c :: t => if inClass cc c then [([c], t)] else []
  | .star cc g, s => if g then (starSplits (inClass cc) s).reverse else starSplits (inClass cc) s
  | .opt _, [] => [([], [])]
  | .opt cc, c :: t => (if inClass cc c then [([c], t)] else []) ++ [([], c :: t)]

/-- Candidate parses of a group body, in backtracking preference order. -/
def genSSeq : List SItem → List Char → List (List Char × List Char)
  | [], s => [([], s)]
  | it :: its, s =>
    (genS it s).flatMap (fun pr => (genSSeq its pr.2).map (fun qr => (pr.1 ++ qr.1, qr.2)))

/-- Candidate parses `(consumed, captures, rest)` of one top-level item. -/
def genItem : RItem → List Char → List (List Char × Caps × List Char)
  | .lit _, [] => []
  | .lit c, c' :: t => if c' = c then [([c], [], t)] else []
  | .cls _, [] => []
  | .cls cc, c :: t => if inClass cc c then [([c], [], t)] else []
  | .star cc g, s => (genS (.star cc g) s).map (fun pr => (pr.1, [], pr.2))
  | .opt cc, s => (genS (.opt cc) s).map (fun pr => (pr.1, [], pr.2))
  | .grp n sub, s => (genSSeq sub s).map (fun pr => (pr.1, [(n, pr.1)], pr.2))
  | .eol, s => if s = [] ∨ s = ['\n'] then [([], [], s)] else []

/-- Candidate parses of an item sequence, in backtracking preference order:
the head of the result is exactly the match a leftmost backtracking engine
(Python `re.match`) commits to. -/
def genSeq : List RItem → List Char → List (List Char × Caps × List Char)
  | [], s => [([], [], s)]
  | it :: its, s =>
    (genItem it s).flatMap (fun pr =>
      (genSeq its pr.2.2).map (fun qr => (pr.1 ++ qr.1, pr.2.1 ++ qr.2.1, qr.2.2)))

/-- First capture recorded for group `n`. -/
def capLookup : Caps → Nat → Option (List Char)
  | [], _ => none
  | (m, v) :: rest, n => if m = n then some v else capLookup rest n

/-- A compiled pattern: its item sequence and its number of capture groups
(`re.Match.groups()` has exactly that many entries). -/
structure Regex where
  items : List RItem
  ngroups : Nat

/-- Python `re.compile(pattern).match(line)` followed by `.groups()`:
`none` when the pattern does not match a prefix of `line`, otherwise the
tuple of captured groups (`none` entries for non-participating groups). -/
def pyMatch (re : Regex) (line : String) : Option (List (Option String)) :=
  match genSeq re.items line.toList with
  | [] => none
  | (_, cs, _) :: _ =>
    some ((List.range re.ngroups).map (fun i => (capLookup cs (i + 1)).map (fun p => String.mk p)))

/-- `[0-9]+` (greedy plus = one forced character then greedy star). -/
def reInt : List SItem := [.cls .digit, .star .digit true]

def starAny (g : Bool) : List SItem := [.star .anyc g]

def lits (s : String) : List RItem := s.toList.map RItem.lit

/-- `([0-9]+)\s*<\.\.\. (.*) (?:resumed>(.*)=\s)(-?[0-9]+)$` -/
def re_resumed : Regex :=
  ⟨[.grp 1 reInt, .star .space true] ++ lits "<... " ++ [.grp 2 (starAny true)] ++
    lits " resumed>" ++ [.grp 3 (starAny true), .lit '=', .cls .space,
    .grp 4 ([.opt (.one '-')] ++ reInt), .eol], 4⟩

/-- `([0-9]+)\s*(.*)\((.*)<unfinished.*$` -/
def re_unfinished : Regex :=
  ⟨[.grp 1 reInt, .star .space true, .grp 2 (starAny true), .lit '(',
    .grp 3 (starAny true)] ++ lits "<unfinished" ++ [.star .anyc true, .eol], 3⟩

/-- `([0-9]+)\s*(.*)\((.*)<no return.*$` -/
def re_no_return : Regex :=
  ⟨[.grp 1 reInt, .star .space true, .grp 2 (starAny true), .lit '(',
    .grp 3 (starAny true)] ++ lits "<no return" ++ [.star .anyc true, .eol], 3⟩

/-- `([0-9]+)\s*[-+]*\s+(.*)\s*\((.*)\)\s+[-+]*$` -/
def re_special : Regex :=
  ⟨[.grp 1 reInt, .star .space true, .star .dashPlus true, .cls .space, .star .space true,
    .grp 2 (starAny true), .star .space true, .lit '(', .grp 3 (starAny true), .lit ')',
    .cls .space, .star .space true, .star .dashPlus true, .eol], 3⟩

/-- `([0-9]+)\s*(.*?)\((.*)\).*?=\s+(.+)$` -/
def re_function_call : Regex :=
  ⟨[.grp 1 reInt, .star .space true, .grp 2 (starAny false), .lit '(',
    .grp 3 (starAny true), .lit ')', .star .anyc false, .lit '=', .cls .space,
    .star .space true, .grp 4 ([.cls .anyc, .star .anyc true]), .eol], 4⟩

/-- The ordered pattern table (insertion order of the `OrderedDict`). -/
def regex_dict : List (String × Regex) :=
  [("resumed", re_resumed), ("unfinished", re_unfinished), ("no_return", re_no_return),
   ("special", re_special), ("function_call", re_function_call)]

/-- `([0-9]+)\s*.` used by `Trace.__init__` on the first log line. -/
def pid_first_regex : Regex := ⟨[.grp 1 reInt, .star .space true, .cls .anyc], 1⟩

/-- Python `str.splitlines` line boundaries. -/
def isLineBoundary (c : Char) : Bool :=
  c = '\n' || c = '\r' || c = '\x0b' || c = '\x0c' || c = '\x1c' || c = '\x1d' ||
  c = '\x1e' || c = '\x85' || c = '\u2028' || c = '\u2029'

def splitlinesAux (cur : List Char) : List Char → List (List Char)
  | [] => if cur = [] then [] else [cur.reverse]
  | '\r' :: '\n' :: t => cur.reverse :: splitlinesAux [] t
  | c :: t =>
    if isLineBoundary c then cur.reverse :: splitlinesAux [] t
    else splitlinesAux (c :: cur) t

/-- Python `str.splitlines()` (no trailing empty line, `\r\n` one boundary). -/
def pySplitlines (s : String) : List String := (splitlinesAux [] s.toList).map String.mk

/-- First occurrence split: `some (before, after)` at the first position
where `sep` occurs, scanning left to right. -/
def splitOnceCh (sep : List Char) : List Char → Option (List Char × List Char)
  | [] => if sep = [] then some ([], []) else none
  | c :: t =>
    if sep.isPrefixOf (c :: t) then some ([], (c :: t).drop sep.length)
    else (splitOnceCh sep t).map (fun pr => (c :: pr.1, pr.2))

/-- Python `s.split(sep, 1)`: `[s]` when `sep` does not occur, otherwise
`[before, after]` around the first occurrence. -/
def pySplitOnce (sep s : String) : List String :=
  match splitOnceCh sep.toList s.toList with
  | none => [s]
  | some pr => [String.mk pr.1, String.mk pr.2]

def infixCh (needle : List Char) : List Char → Bool
  | [] => needle.isPrefixOf []
  | c :: t => needle.isPrefixOf (c :: t) || infixCh needle t

/-- Python `needle in hay` on strings: substring containment. -/
def strContains (hay needle : String) : Bool :=
  infixCh needle.toList hay.toList

def wsSplitAux (cur : List Char) : List Char → List (List Char)
  | [] => if cur = [] then [] else [cur.reverse]
  | c :: t =>
    if isPySpace c then
      (if cur = [] then wsSplitAux [] t else cur.reverse :: wsSplitAux [] t)
    else wsSplitAux (c :: cur) t

/-- Python `str.split()` with no arguments: split on whitespace runs,
discarding empty fields. -/
def pyWSSplit (s : String) : List String := (wsSplitAux [] s.toList).map String.mk

/-- Digit sequence with optional single underscores between digits
(Python's integer-literal body). -/
def underscoreTail : List Char → Bool
  | [] => true
  | '_' :: c :: r => isDigitChar c && underscoreTail r
  | '_' :: [] => false
  | c :: r => isDigitChar c && underscoreTail r

def isIntBody : List Char → Bool
  | [] => false
  | c :: r => isDigitChar c && underscoreTail r

/-- Python `int(s)` on a decimal string: surrounding whitespace allowed,
optional sign, digits (with legal underscores); `ValueError` otherwise. -/
def pyInt (s : String) : Except PyErr Int :=
  let t := ((s.toList.dropWhile isPySpace).reverse.dropWhile isPySpace).reverse
  let signAndDigits : Bool × List Char :=
    match t with
    | '-' :: r => (true, r)
    | '+' :: r => (false, r)
    | r => (false, r)
  if isIntBody signAndDigits.2 then
    let n : Nat := signAndDigits.2.foldl
      (fun acc c => if c = '_' then acc else acc * 10 + (c.toNat - '0'.toNat)) 0
    .ok (if signAndDigits.1 then -(n : Int) else (n : Int))
  else .error .valueError

/-- The `("", "", "", "")` sentinel returned when no pattern matches. -/
def sentinelNoMatch : List (Option String) := [some "", some "", some "", some ""]

/-- The `while len(final_result) < 4: final_result += (None,)` padding loop,
unrolled (the loop appends `None` until 4 fields exist, and never runs for 4
or more fields). -/
def padToFour : List (Option String) → List (Option String)
  | [] => [none, none, none, none]
  | [a] => [a, none, none, none]
  | [a, b] => [a, b, none, none]
  | [a, b, c] => [a, b, c, none]
  | l => l

/-- `run_through_regexes(regexes, trace_line)`: try the patterns in order;
on the first match normalize the group list (arrow-stripping of field 1,
`None`-padding to 4 fields, kind tag appended); `("", "", "", "")` when no
pattern matches.  The `len(final_result) >= 3` guard raises `ValueError`
("groups mismatch arity") for patterns with fewer than 3 groups; `None` in
field 1 would make `.split` raise `AttributeError`. -/
def run_through_regexes : List (String × Regex) → String → Except PyErr (List (Option String))
  | [], _ => .ok sentinelNoMatch
  | (key, re) :: rest, trace_line =>
    match pyMatch re trace_line with
    | none => run_through_regexes rest trace_line
    | some groups =>
      if 3 ≤ groups.length then
        match groups.get? 1 with
        | some (some g2) =>
          let parts := pySplitOnce "->" g2
          let cleaned := if 1 < parts.length then groups.set 1 (some (parts.getD 1 "")) else groups
          .ok (padToFour cleaned ++ [some key])
        | some none => .error .attributeError
        | none => .error .indexError
      else .error .valueError

/-- `parse_arbitrary(trace_line, regex)`: the match's groups, or `None`. -/
def parse_arbitrary (trace_line : String) (re : Regex) : Option (List (Option String)) :=
  pyMatch re trace_line

/-- One stored call record: `(func_name, args, ret_val, type)` (or, in the
flat `lines` list, with the pid still in front). -/
abbrev CallRec := List (Option String)

/-- `process_log`: insertion-ordered mapping pid → call records. -/
abbrev ProcLog := List (String × List CallRec)

def lookupLog : ProcLog → String → Option (List CallRec)
  | [], _ => none
  | (p, b) :: rest, pid => if p = pid then some b else lookupLog rest pid

/-- `self.process_log[pid].append(...)` on the `defaultdict(list)`. -/
def logInsert : ProcLog → String → CallRec → ProcLog
  | [], pid, r => [(pid, [r])]
  | (p, b) :: rest, pid, r =>
    if p = pid then (p, b ++ [r]) :: rest else (p, b) :: logInsert rest pid r

/-- Subscripting the `defaultdict(list)`: a missing key is inserted with a
fresh empty list (this is the state change a bare `log[pid]` can cause). -/
def dd_getitem (log : ProcLog) (pid : String) : List CallRec × ProcLog :=
  match lookupLog log pid with
  | some b => (b, log)
  | none => ([], log ++ [(pid, [])])

/-- The parsed result of one run: `first_process`, the flat `lines` list,
and the per-pid `process_log`. -/
structure Trace where
  first_process : Option String
  lines : List CallRec
  process_log : ProcLog
  split_lines : List String
  raw : String
deriving DecidableEq, Repr

/-- The classification loop of `Trace.__init__`: each line is run through
`regex_dict`; a result with fewer than 4 fields or a falsy first field is
skipped, otherwise the record joins `lines` and its pid's bucket. -/
def parseLines : List String → List CallRec → ProcLog → Except PyErr (List CallRec × ProcLog)
  | [], lns, log => .ok (lns, log)
  | line :: rest, lns, log =>
    match run_through_regexes regex_dict line with
    | .error e => .error e
    | .ok parsed =>
      if parsed.length < 4 then parseLines rest lns log
      else
        match parsed.get? 0 with
        | some (some pid) =>
          if pid = "" then parseLines rest lns log
          else parseLines rest (lns ++ [parsed]) (logInsert log pid (parsed.drop 1))
        | _ => parseLines rest lns log

/-- `Trace.__init__` after the tracer has run: split the decoded log, check
the first line's pid when there is more than one line (raising
`Exception("First call of ltrace is not pid!")` on failure), then run the
classification loop. -/
def buildTrace (raw : String) : Except PyErr Trace :=
  let split_lines := pySplitlines raw
  let firstStep : Except PyErr (Option String) :=
    if 1 < split_lines.length then
      match parse_arbitrary (split_lines.headD "") pid_first_regex with
      | some (g0 :: _) => .ok g0
      | some [] => .error (.exception "First call of ltrace is not pid!")
      | none => .error (.exception "First call of ltrace is not pid!")
    else .ok none
  match firstStep with
  | .error e => .error e
  | .ok fp =>
    match parseLines split_lines [] [] with
    | .error e => .error e
    | .ok pr => .ok ⟨fp, pr.1, pr.2, split_lines, raw⟩

/-- Outcome of the `_exec(["ltrace"] + ...)` subprocess call, abstracted:
it completes in time, it raises `subprocess.TimeoutExpired`, or it raises
some other error (e.g. `CalledProcessError`). -/
inductive ExecOutcome where
  | completed
  | timedOut
  | failed
deriving DecidableEq, Repr

/-- `Trace.__init__` including the tracer invocation: `TimeoutExpired` is
caught and ignored (`except subprocess.TimeoutExpired: pass`), every other
subprocess failure propagates; then the log file contents are parsed. -/
def trace_init (outcome : ExecOutcome) (log_contents : String) : Except PyErr Trace :=
  match outcome with
  | .failed => .error .calledProcessError
  | .completed => buildTrace log_contents
  | .timedOut => buildTrace log_contents

/-- The scan of `get_status`: `if "exited" in calls[0]: return int(calls[1].split()[-1])`. -/
def scanExited : List CallRec → Except PyErr (Option Int)
  | [] => .ok none
  | calls :: rest =>
    match calls.get? 0 with
    | none => .error .indexError
    | some none => .error .typeError
    | some (some name) =>
      if strContains name "exited" then
        match calls.get? 1 with
        | none => .error .indexError
        | some none => .error .attributeError
        | some (some detail) =>
          match (pyWSSplit detail).getLast? with
          | none => .error .indexError
          | some tok => (pyInt tok).map some
      else scanExited rest

/-- `Trace.get_status(pid)`; the second component is the `process_log`
after the call (the membership guard keeps the `defaultdict` from growing). -/
def get_status (t : Trace) (pid : String) : Except PyErr (Option Int) × ProcLog :=
  if (lookupLog t.process_log pid).isNone then (.ok none, t.process_log)
  else
    let br := dd_getitem t.process_log pid
    (scanExited br.1, br.2)

/-- The comprehension `[call for call in bucket if call[0] == match]`. -/
def filterCalls : List CallRec → String → Except PyErr (List CallRec)
  | [], _ => .ok []
  | c :: rest, m =>
    match c.get? 0 with
    | none => .error .indexError
    | some v =>
      (filterCalls rest m).map (fun r => if v = some m then c :: r else r)

/-- `Trace.lines_for_pid(pid, match="")`; the second component is the
`process_log` after the call. -/
def lines_for_pid (t : Trace) (pid : String) (mtch : String) : Except PyErr (List CallRec) × ProcLog :=
  if (lookupLog t.process_log pid).isNone then (.ok [], t.process_log)
  else if mtch = "" then
    let br := dd_getitem t.process_log pid
    (.ok br.1, br.2)
  else
    let br := dd_getitem t.process_log pid
    (filterCalls br.1 mtch, br.2)

/-- First entry of the table whose pattern matches, with its groups. -/
def matchFirst : List (String × Regex) → String → Option (String × List (Option String))
  | [], _ => none
  | (k, re) :: rest, line =>
    match pyMatch re line with
    | some gs => some (k, gs)
    | none => matchFirst rest line

/-- The field-1 normalization: text after the first `"->"` when present. -/
def afterArrow (s : String) : String :=
  let parts := pySplitOnce "->" s
  if 1 < parts.length then parts.getD 1 "" else s

/-- The five kind tags. -/
def kindNames : List String :=
  ["resumed", "unfinished", "no_return", "special", "function_call"]

/-- The character class consumed by an in-group item. -/
def sClass : SItem → CClass
  | .cls cc => cc
  | .star cc _ => cc
  | .opt cc => cc

/-- A pattern is well-formed for the classifier when it has 3 or 4 groups
and its pid/name/args groups always participate, the pid group capturing a
nonempty digit string. -/
def GoodRe (re : Regex) : Prop :=
  3 ≤ re.ngroups ∧ re.ngroups ≤ 4 ∧
  ∀ line gs, pyMatch re line = some gs →
    (∃ d, gs.get? 0 = some (some d) ∧ d ≠ "" ∧ d.toList.all isDigitChar) ∧
    (∃ g2, gs.get? 1 = some (some g2)) ∧
    (∃ g3, gs.get? 2 = some (some g3))

/-- Shape of every record the parse loop stores in `lines`. -/
def LineShape (r : CallRec) : Prop :=
  r.length = 5 ∧
  (∃ d, r.get? 0 = some (some d) ∧ d ≠ "" ∧ d.toList.all isDigitChar) ∧
  (∃ k, r.getLast? = some (some k) ∧ k ∈ kindNames)

/-- The record a flat line contributes to pid `p`'s bucket. -/
def pickFor (p : String) (r : CallRec) : Option CallRec :=
  if r.get? 0 = some (some p) then some (r.drop 1) else none

/-- Invariant tying `process_log` to the flat `lines` list. -/
def LogInv (lns : List CallRec) (log : ProcLog) : Prop :=
  (∀ p, (lookupLog log p).getD [] = lns.filterMap (pickFor p)) ∧
  (∀ pb ∈ log, ∃ l ∈ lns, l.get? 0 = some (some pb.1)) ∧
  (∀ l ∈ lns, LineShape l)



/-! ## Engine lemmas -/

/-- Every candidate split of a starred class consists of characters of the
class. -/
theorem mem_starSplits {q : Char → Bool} {s : List Char} {pr : List Char × List Char}
    (h : pr ∈ starSplits q s) : s = pr.1 ++ pr.2 ∧ pr.1.all q := by
  induction s generalizing pr with
  | nil =>
    simp only [starSplits, List.mem_singleton] at h
    subst h; simp
  | cons c t ih =>
    simp only [starSplits, List.mem_cons] at h
    rcases h with h | h
    · subst h; simp
    · by_cases hq : q c
      · simp only [hq, if_true, List.mem_map] at h
        obtain ⟨pr', hpr', rfl⟩ := h
        obtain ⟨h1, h2⟩ := ih hpr'
        simp [h1, hq, h2]
      · simp [hq] at h

/-- Every candidate parse of one in-group item consumes only characters of
its class. -/
theorem mem_genS {it : SItem} {s : List Char} {pr : List Char × List Char}
    (h : pr ∈ genS it s) : pr.1.all (inClass (sClass it)) := by
  rcases it with cc | ⟨cc, g⟩ | cc
  · rcases s with _ | ⟨c, t⟩
    · simp [genS] at h
    · by_cases hc : inClass cc c
      · simp only [genS, hc, if_true, List.mem_singleton] at h
        subst h; simp [sClass, hc]
      · simp [genS, hc] at h
  · have hmem : pr ∈ starSplits (inClass cc) s := by
      rcases g with _ | _
      · simpa [genS] using h
      · exact List.mem_reverse.mp (by simpa [genS] using h)
    simpa [sClass] using (mem_starSplits hmem).2
  · rcases s with _ | ⟨c, t⟩
    · simp only [genS, List.mem_singleton] at h
      subst h; simp
    · by_cases hc : inClass cc c
      · simp only [genS, hc, if_true] at h
        rcases List.mem_append.mp h with h' | h'
        · rw [List.mem_singleton] at h'
          subst h'; simp [sClass, hc]
        · rw [List.mem_singleton] at h'
          subst h'; simp
      · simp [genS, hc] at h
        subst h; simp

/-- Every candidate parse of a group body made of items over `P`-classes
consumes only `P`-characters. -/
theorem mem_genSSeq_all {P : Char → Bool} {its : List SItem}
    (hits : ∀ it ∈ its, ∀ ch, inClass (sClass it) ch → P ch) :
    ∀ {s : List Char} {pr : List Char × List Char},
      pr ∈ genSSeq its s → pr.1.all P := by
  induction its with
  | nil =>
    intro s pr h
    simp only [genSSeq, List.mem_singleton] at h
    subst h; simp
  | cons it its ih =>
    intro s pr h
    simp only [genSSeq, List.mem_flatMap, List.mem_map] at h
    obtain ⟨a, ha, qr, hqr, rfl⟩ := h
    have h1 := mem_genS ha
    have h2 := ih (fun j hj => hits j (List.mem_cons_of_mem _ hj)) hqr
    simp only [List.all_append, Bool.and_eq_true]
    exact ⟨List.all_eq_true.mpr fun ch hch =>
      hits it (List.mem_cons_self _ _) ch (List.all_eq_true.mp h1 ch hch), h2⟩

/-- A group body headed by a mandatory single-character item consumes a
nonempty prefix. -/
theorem mem_genSSeq_cls_ne {cc : CClass} {rest : List SItem}
    {s : List Char} {pr : List Char × List Char}
    (h : pr ∈ genSSeq (SItem.cls cc :: rest) s) : pr.1 ≠ [] := by
  simp only [genSSeq, List.mem_flatMap, List.mem_map] at h
  obtain ⟨a, ha, qr, hqr, rfl⟩ := h
  rcases s with _ | ⟨c, t⟩
  · simp [genS] at ha
  · by_cases hc : inClass cc c
    · simp only [genS, hc, if_true, List.mem_singleton] at ha
      subst ha; simp
    · simp [genS, hc] at ha

/-- Every candidate parse of the `[0-9]+` group body consumes a nonempty
all-digit prefix. -/
theorem mem_genSSeq_reInt {s : List Char} {pr : List Char × List Char}
    (h : pr ∈ genSSeq reInt s) : pr.1 ≠ [] ∧ pr.1.all isDigitChar := by
  refine ⟨mem_genSSeq_cls_ne h, mem_genSSeq_all ?_ h⟩
  intro it hit ch hch
  rcases List.mem_cons.mp hit with rfl | hit'
  · simpa [sClass, inClass] using hch
  · simp only [reInt, List.mem_singleton] at hit'
    subst hit'
    simpa [sClass, inClass] using hch

/-- A sequence headed by the pid group `([0-9]+)` records, first in its
capture list, a nonempty all-digit capture for group 1. -/
theorem genSeq_grp1_caps {rest : List RItem} {s : List Char}
    {pr : List Char × Caps × List Char}
    (h : pr ∈ genSeq (RItem.grp 1 reInt :: rest) s) :
    ∃ d cs2, pr.2.1 = (1, d) :: cs2 ∧ d ≠ [] ∧ d.all isDigitChar := by
  simp only [genSeq, genItem, List.mem_flatMap, List.mem_map] at h
  obtain ⟨a, ⟨a', ha', rfl⟩, qr, hqr, rfl⟩ := h
  obtain ⟨hne, hall⟩ := mem_genSSeq_reInt ha'
  exact ⟨a'.1, qr.2.1, rfl, hne, hall⟩

/-- If a group item occurs in the sequence, every candidate parse records a
capture for its group number. -/
theorem genSeq_caps_of_grp {n : Nat} {sub : List SItem} {its : List RItem}
    (hmem : RItem.grp n sub ∈ its) :
    ∀ {s : List Char} {pr : List Char × Caps × List Char},
      pr ∈ genSeq its s → ∃ q, (n, q) ∈ pr.2.1 := by
  induction its with
  | nil => simp at hmem
  | cons it its ih =>
    intro s pr h
    simp only [genSeq, List.mem_flatMap, List.mem_map] at h
    obtain ⟨a, ha, qr, hqr, rfl⟩ := h
    rcases List.mem_cons.mp hmem with rfl | hmem'
    · simp only [genItem, List.mem_map] at ha
      obtain ⟨a', _, rfl⟩ := ha
      exact ⟨a'.1, by simp⟩
    · obtain ⟨q, hq⟩ := ih hmem' hqr
      exact ⟨q, by simp [hq]⟩

/-- A recorded capture makes the lookup succeed. -/
theorem capLookup_isSome {cs : Caps} {n : Nat} {q : List Char}
    (h : (n, q) ∈ cs) : ∃ q', capLookup cs n = some q' := by
  induction cs with
  | nil => simp at h
  | cons hd tl ih =>
    obtain ⟨m, v⟩ := hd
    by_cases hm : m = n
    · exact ⟨v, by simp [capLookup, hm]⟩
    · rcases List.mem_cons.mp h with h' | h'
      · exact absurd (congrArg Prod.fst h').symm hm
      · obtain ⟨q', hq'⟩ := ih h'
        exact ⟨q', by simp [capLookup, hm, hq']⟩

/-- Shape of a successful `pyMatch`. -/
theorem pyMatch_elim {re : Regex} {line : String} {gs : List (Option String)}
    (h : pyMatch re line = some gs) :
    ∃ p cs r tl, genSeq re.items line.toList = (p, cs, r) :: tl ∧
      gs = (List.range re.ngroups).map (fun i => (capLookup cs (i + 1)).map (fun q => String.mk q)) := by
  unfold pyMatch at h
  rcases hg : genSeq re.items line.toList with _ | ⟨⟨p, cs, r⟩, tl⟩
  · rw [hg] at h; simp at h
  · rw [hg] at h
    simp only [Option.some.injEq] at h
    exact ⟨p, cs, r, tl, rfl, h.symm⟩

/-- The groups list has exactly `ngroups` entries. -/
theorem pyMatch_length {re : Regex} {line : String} {gs : List (Option String)}
    (h : pyMatch re line = some gs) : gs.length = re.ngroups := by
  obtain ⟨p, cs, r, tl, _, rfl⟩ := pyMatch_elim h
  simp

/-- Common argument for the five patterns: each starts with the pid group
and contains name and args groups. -/
theorem goodRe_of_shape (re : Regex) (rest : List RItem)
    (hitems : re.items = RItem.grp 1 reInt :: rest)
    (sub2 : List SItem) (h2 : RItem.grp 2 sub2 ∈ re.items)
    (sub3 : List SItem) (h3 : RItem.grp 3 sub3 ∈ re.items)
    (hn3 : 3 ≤ re.ngroups) (hn4 : re.ngroups ≤ 4) : GoodRe re := by
  refine ⟨hn3, hn4, ?_⟩
  intro line gs h
  obtain ⟨p, cs, r, tl, hseq, rfl⟩ := pyMatch_elim h
  have hmem : ((p, cs, r) : List Char × Caps × List Char) ∈ genSeq re.items line.toList := by
    rw [hseq]; exact List.mem_cons_self _ _
  have hmem1 : ((p, cs, r) : List Char × Caps × List Char) ∈
      genSeq (RItem.grp 1 reInt :: rest) line.toList := by rwa [hitems] at hmem
  obtain ⟨d, cs2, hcs, hdne, hdall⟩ := genSeq_grp1_caps hmem1
  obtain ⟨q2, hq2⟩ := genSeq_caps_of_grp h2 hmem
  obtain ⟨q3, hq3⟩ := genSeq_caps_of_grp h3 hmem
  simp only at hcs hq2 hq3
  obtain ⟨v2, hv2⟩ := capLookup_isSome hq2
  obtain ⟨v3, hv3⟩ := capLookup_isSome hq3
  have hget : ∀ i, i < re.ngroups →
      ((List.range re.ngroups).map
        (fun i => (capLookup cs (i + 1)).map (fun q => String.mk q))).get? i =
      some ((capLookup cs (i + 1)).map (fun q => String.mk q)) := by
    intro i hi
    rw [List.get?_map, List.get?_range hi]
    rfl
  refine ⟨⟨String.mk d, ?_, ?_, ?_⟩, ⟨String.mk v2, ?_⟩, ⟨String.mk v3, ?_⟩⟩
  · rw [hget 0 (by omega), hcs]
    simp [capLookup]
  · intro hcon
    exact hdne (congrArg String.data hcon)
  · simpa using hdall
  · rw [hget 1 (by omega), hv2]; simp
  · rw [hget 2 (by omega), hv3]; simp

/-! ## The five patterns are well-formed -/

theorem goodRe_re_resumed : GoodRe re_resumed :=
  goodRe_of_shape re_resumed _ rfl (starAny true) (by decide) (starAny true) (by decide)
    (by decide) (by decide)

theorem goodRe_re_unfinished : GoodRe re_unfinished :=
  goodRe_of_shape re_unfinished _ rfl (starAny true) (by decide) (starAny true) (by decide)
    (by decide) (by decide)

theorem goodRe_re_no_return : GoodRe re_no_return :=
  goodRe_of_shape re_no_return _ rfl (starAny true) (by decide) (starAny true) (by decide)
    (by decide) (by decide)

theorem goodRe_re_special : GoodRe re_special :=
  goodRe_of_shape re_special _ rfl (starAny true) (by decide) (starAny true) (by decide)
    (by decide) (by decide)

theorem goodRe_re_function_call : GoodRe re_function_call :=
  goodRe_of_shape re_function_call _ rfl (starAny false) (by decide) (starAny true) (by decide)
    (by decide) (by decide)

theorem goodTbl_regex_dict : ∀ kv ∈ regex_dict, GoodRe kv.2 := by
  intro kv hkv
  simp only [regex_dict, List.mem_cons, List.mem_singleton] at hkv
  rcases hkv with rfl | rfl | rfl | rfl | rfl | h
  · exact goodRe_re_resumed
  · exact goodRe_re_unfinished
  · exact goodRe_re_no_return
  · exact goodRe_re_special
  · exact goodRe_re_function_call
  · simp at h

/-! ## Normalization lemmas -/

theorem padToFour_len3 {l : List (Option String)} (h : l.length = 3) :
    padToFour l = l ++ [none] := by
  rcases l with _ | ⟨a, _ | ⟨b, _ | ⟨c, _ | ⟨d, t⟩⟩⟩⟩
  · simp at h
  · simp at h
  · simp at h
  · rfl
  · simp at h

theorem padToFour_len4 {l : List (Option String)} (h : l.length = 4) :
    padToFour l = l := by
  rcases l with _ | ⟨a, _ | ⟨b, _ | ⟨c, _ | ⟨d, t⟩⟩⟩⟩
  · simp at h
  · simp at h
  · simp at h
  · simp at h
  · rfl

theorem set_get?_self {α : Type} {l : List α} {n : Nat} {v : α}
    (h : l.get? n = some v) : l.set n v = l := by
  induction l generalizing n with
  | nil => simp at h
  | cons a t ih =>
    rcases n with _ | n
    · simp only [List.get?] at h
      injection h with h
      simp [h]
    · simp only [List.get?] at h
      simp [ih h]

/-! ## First-match characterization of the classifier -/

theorem matchFirst_mem {tbl : List (String × Regex)} {line : String}
    {k : String} {gs : List (Option String)}
    (h : matchFirst tbl line = some (k, gs)) :
    ∃ re, (k, re) ∈ tbl ∧ pyMatch re line = some gs := by
  induction tbl with
  | nil => simp [matchFirst] at h
  | cons kv rest ih =>
    obtain ⟨k0, re0⟩ := kv
    rcases hm : pyMatch re0 line with _ | gs0
    · simp only [matchFirst, hm] at h
      obtain ⟨re, hmem, hre⟩ := ih h
      exact ⟨re, List.mem_cons_of_mem _ hmem, hre⟩
    · simp only [matchFirst, hm, Option.some.injEq, Prod.mk.injEq] at h
      obtain ⟨rfl, rfl⟩ := h
      exact ⟨re0, List.mem_cons_self _ _, hm⟩

/-- With no pattern matching, the classifier falls through to the
`("", "", "", "")` sentinel. -/
theorem rtr_all_none {tbl : List (String × Regex)} {line : String}
    (h : ∀ kv ∈ tbl, pyMatch kv.2 line = none) :
    run_through_regexes tbl line = .ok sentinelNoMatch := by
  induction tbl with
  | nil => rfl
  | cons kv rest ih =>
    obtain ⟨k0, re0⟩ := kv
    have h0 : pyMatch re0 line = none := h (k0, re0) (List.mem_cons_self _ _)
    simp only [run_through_regexes, h0]
    exact ih fun kv hkv => h kv (List.mem_cons_of_mem _ hkv)

/-- A first-matching pattern with fewer than 3 groups trips the arity
guard. -/
theorem rtr_short {tbl : List (String × Regex)} {line : String}
    {k : String} {gs : List (Option String)}
    (h : matchFirst tbl line = some (k, gs)) (hlen : gs.length < 3) :
    run_through_regexes tbl line = .error .valueError := by
  induction tbl with
  | nil => simp [matchFirst] at h
  | cons kv rest ih =>
    obtain ⟨k0, re0⟩ := kv
    rcases hm : pyMatch re0 line with _ | gs0
    · simp only [matchFirst, hm] at h
      simp only [run_through_regexes, hm]
      exact ih h
    · simp only [matchFirst, hm, Option.some.injEq, Prod.mk.injEq] at h
      obtain ⟨rfl, rfl⟩ := h
      simp only [run_through_regexes, hm]
      rw [if_neg (by omega)]

/-- Main characterization of `run_through_regexes` over a table of
well-formed patterns: no match yields the sentinel, and the first match
yields the groups with field 1 arrow-stripped, `None`-padded to four,
and the kind key appended. -/
theorem rtr_of_matchFirst {tbl : List (String × Regex)}
    (good : ∀ kv ∈ tbl, GoodRe kv.2) (line : String) :
    (matchFirst tbl line = none → run_through_regexes tbl line = .ok sentinelNoMatch) ∧
    (∀ k gs g2, matchFirst tbl line = some (k, gs) → gs.get? 1 = some (some g2) →
      run_through_regexes tbl line =
        .ok (padToFour (gs.set 1 (some (afterArrow g2))) ++ [some k])) := by
  induction tbl with
  | nil =>
    refine ⟨fun _ => rfl, ?_⟩
    intro k gs g2 h
    simp [matchFirst] at h
  | cons kv rest ih =>
    obtain ⟨k0, re0⟩ := kv
    have ih' := ih fun kv hkv => good kv (List.mem_cons_of_mem _ hkv)
    constructor
    · intro hnone
      rcases hm : pyMatch re0 line with _ | gs0
      · simp only [run_through_regexes, hm]
        simp only [matchFirst, hm] at hnone
        exact ih'.1 hnone
      · simp [matchFirst, hm] at hnone
    · intro k gs g2 hsome hg2
      rcases hm : pyMatch re0 line with _ | gs0
      · simp only [run_through_regexes, hm]
        simp only [matchFirst, hm] at hsome
        exact ih'.2 k gs g2 hsome hg2
      · simp only [matchFirst, hm, Option.some.injEq, Prod.mk.injEq] at hsome
        obtain ⟨rfl, rfl⟩ := hsome
        have hgood := good _ (List.mem_cons_self _ _)
        have h3 : 3 ≤ gs0.length := by
          rw [pyMatch_length hm]
          exact hgood.1
        simp only [run_through_regexes, hm]
        rw [if_pos h3, hg2]
        by_cases hp : 1 < (pySplitOnce "->" g2).length
        · simp only [afterArrow, hp, if_true]
        · simp only [afterArrow, hp, if_false]
          rw [set_get?_self hg2]

/-! ## Parse-loop invariants -/

theorem lookupLog_logInsert (log : ProcLog) (p : String) (r : CallRec) (q : String) :
    lookupLog (logInsert log p r) q =
      if q = p then some (((lookupLog log q).getD []) ++ [r]) else lookupLog log q := by
  induction log with
  | nil =>
    by_cases h : q = p
    · simp [logInsert, lookupLog, h]
    · simp [logInsert, lookupLog, h, fun hh => h (Eq.symm hh)]
      intro hpq
      exact absurd hpq.symm h
  | cons hd tl ih =>
    obtain ⟨a, b⟩ := hd
    by_cases hap : a = p
    · subst hap
      by_cases hq : q = a
      · subst hq
        simp [logInsert, lookupLog]
      · simp only [logInsert, if_pos rfl, lookupLog]
        rw [if_neg (fun hh => hq hh.symm), if_neg hq, if_neg (fun hh => hq hh.symm)]
    · by_cases hq : a = q
      · subst hq
        simp [logInsert, if_neg hap, lookupLog, hap]
      · simp only [logInsert, if_neg hap, lookupLog, if_neg hq]
        exact ih

theorem mem_logInsert {log : ProcLog} {p : String} {r : CallRec}
    {pb : String × List CallRec} (h : pb ∈ logInsert log p r) :
    pb.1 = p ∨ pb ∈ log := by
  induction log with
  | nil =>
    simp only [logInsert, List.mem_singleton] at h
    subst h
    exact Or.inl rfl
  | cons hd tl ih =>
    obtain ⟨a, b⟩ := hd
    by_cases hap : a = p
    · subst hap
      simp only [logInsert, if_pos rfl] at h
      rcases List.mem_cons.mp h with h | h
      · rw [h]
        exact Or.inl rfl
      · exact Or.inr (List.mem_cons_of_mem _ h)
    · simp only [logInsert, if_neg hap] at h
      rcases List.mem_cons.mp h with h | h
      · rw [h]
        exact Or.inr (List.mem_cons_self _ _)
      · rcases ih h with h' | h'
        · exact Or.inl h'
        · exact Or.inr (List.mem_cons_of_mem _ h')

/-- Storing one record preserves the invariant. -/
theorem LogInv_store {lns : List CallRec} {log : ProcLog} {parsed : CallRec} {d : String}
    (hinv : LogInv lns log) (hshape : LineShape parsed)
    (hd0 : parsed.get? 0 = some (some d)) :
    LogInv (lns ++ [parsed]) (logInsert log d (parsed.drop 1)) := by
  obtain ⟨hmap, hkeys, hshapes⟩ := hinv
  refine ⟨?_, ?_, ?_⟩
  · intro p
    rw [lookupLog_logInsert, List.filterMap_append]
    by_cases hp : p = d
    · subst hp
      rw [if_pos rfl]
      have hpick : pickFor p parsed = some (parsed.drop 1) := by
        unfold pickFor
        rw [if_pos hd0]
      simp [hpick, hmap p]
    · rw [if_neg hp, hmap p]
      have hnone : pickFor p parsed = none := by
        unfold pickFor
        rw [if_neg]
        rw [hd0]
        intro hh
        apply hp
        injection hh with hh
        injection hh with hh
        exact hh.symm
      simp [hnone]
  · intro pb hpb
    rcases mem_logInsert hpb with h1 | h1
    · exact ⟨parsed, by simp, by rw [h1]; exact hd0⟩
    · obtain ⟨l, hl, hl0⟩ := hkeys pb h1
      exact ⟨l, List.mem_append_left _ hl, hl0⟩
  · intro l hl
    rcases List.mem_append.mp hl with h1 | h1
    · exact hshapes l h1
    · rw [List.mem_singleton] at h1
      subst h1
      exact hshape

/-- Membership of the five kind keys. -/
theorem key_mem_kindNames {k : String} {re : Regex}
    (h : (k, re) ∈ regex_dict) : k ∈ kindNames := by
  simp only [regex_dict, List.mem_cons, List.mem_singleton, Prod.mk.injEq] at h
  rcases h with ⟨rfl, _⟩ | ⟨rfl, _⟩ | ⟨rfl, _⟩ | ⟨rfl, _⟩ | ⟨rfl, _⟩ | h
  · simp [kindNames]
  · simp [kindNames]
  · simp [kindNames]
  · simp [kindNames]
  · simp [kindNames]
  · simp at h

/-- A classified line is either the sentinel or a well-shaped record. -/
theorem rtr_parsed_line {line : String} {parsed : List (Option String)}
    (h : run_through_regexes regex_dict line = .ok parsed) :
    parsed = sentinelNoMatch ∨ LineShape parsed := by
  rcases hmf : matchFirst regex_dict line with _ | ⟨k, gs⟩
  · left
    have := (rtr_of_matchFirst goodTbl_regex_dict line).1 hmf
    rw [this] at h
    injection h with h
    exact h.symm
  · right
    obtain ⟨re, hmem, hpm⟩ := matchFirst_mem hmf
    have hgood : GoodRe re := goodTbl_regex_dict (k, re) hmem
    obtain ⟨hd, hg2, _⟩ := hgood.2.2 line gs hpm
    obtain ⟨d, hd0, hdne, hdall⟩ := hd
    obtain ⟨g2, hg2'⟩ := hg2
    have hrun := (rtr_of_matchFirst goodTbl_regex_dict line).2 k gs g2 hmf hg2'
    rw [hrun] at h
    injection h with h
    subst h
    have hlen : gs.length = re.ngroups := pyMatch_length hpm
    have hlen34 : gs.length = 3 ∨ gs.length = 4 := by
      have h1 := hgood.1
      have h2 := hgood.2.1
      omega
    set padded := padToFour (gs.set 1 (some (afterArrow g2))) with hpadded
    have hplen : padded.length = 4 := by
      rcases hlen34 with h34 | h34
      · rw [hpadded, padToFour_len3 (by simp [h34]), List.length_append, List.length_set, h34]
        simp
      · rw [hpadded, padToFour_len4 (by simp [h34]), List.length_set, h34]
    have hpget : padded.get? 0 = some (some d) := by
      have hset : (gs.set 1 (some (afterArrow g2))).get? 0 = some (some d) := by
        rw [List.get?_set_ne _ _ (by omega)]
        exact hd0
      rcases hlen34 with h34 | h34
      · rw [hpadded, padToFour_len3 (by simp [h34]), List.get?_append (by simp [List.length_set, h34]), hset]
      · rw [hpadded, padToFour_len4 (by simp [h34]), hset]
    refine ⟨?_, ⟨d, ?_, hdne, hdall⟩, ⟨k, ?_, key_mem_kindNames hmem⟩⟩
    · rw [List.length_append, hplen]
      rfl
    · rw [List.get?_append (by omega), hpget]
    · exact List.getLast?_concat _

theorem LogInv_nil : LogInv [] [] :=
  ⟨fun p => by simp [lookupLog], by simp, by simp⟩

/-- The classification loop preserves the invariant. -/
theorem parseLines_inv (ls : List String) :
    ∀ (lns : List CallRec) (log : ProcLog), LogInv lns log →
    ∀ {res : List CallRec × ProcLog}, parseLines ls lns log = .ok res →
      LogInv res.1 res.2 := by
  induction ls with
  | nil =>
    intro lns log hinv res h
    simp only [parseLines, Except.ok.injEq] at h
    rw [← h]
    exact hinv
  | cons line rest ih =>
    intro lns log hinv res h
    rcases hc : run_through_regexes regex_dict line with e | parsed
    · simp only [parseLines, hc] at h
      exact absurd h (by simp)
    · simp only [parseLines, hc] at h
      by_cases h4 : parsed.length < 4
      · rw [if_pos h4] at h
        exact ih _ _ hinv h
      · rw [if_neg h4] at h
        rcases rtr_parsed_line hc with hsent | hshape
        · rw [hsent] at h
          simp only [sentinelNoMatch] at h
          simp at h
          exact ih _ _ hinv h
        · obtain ⟨hlen5, ⟨d, hd0, hdne, hdall⟩, hlast⟩ := hshape
          rw [hd0] at h
          simp only [if_neg hdne] at h
          exact ih _ _
            (LogInv_store hinv ⟨hlen5, ⟨d, hd0, hdne, hdall⟩, hlast⟩ hd0) h

/-- A successfully constructed trace satisfies the invariant tying its
`process_log` to its flat `lines`. -/
theorem buildTrace_inv {raw : String} {t : Trace} (h : buildTrace raw = .ok t) :
    LogInv t.lines t.process_log := by
  simp only [buildTrace] at h
  split at h
  · simp at h
  · split at h
    · simp at h
    · rename_i pr hp
      injection h with h
      rw [← h]
      exact parseLines_inv _ _ _ LogInv_nil hp

/-! ## Query and skip lemmas -/

/-- A sentinel-classified line is skipped by the loop. -/
theorem parseLines_skip {line : String}
    (h : run_through_regexes regex_dict line = .ok sentinelNoMatch)
    (rest : List String) (lns : List CallRec) (log : ProcLog) :
    parseLines (line :: rest) lns log = parseLines rest lns log := by
  simp only [parseLines, h]
  rfl

/-- A line classified to the sentinel contributes nothing, wherever it sits. -/
theorem parseLines_drop_middle {badline : String}
    (h : run_through_regexes regex_dict badline = .ok sentinelNoMatch)
    (pre : List String) :
    ∀ (post : List String) (lns : List CallRec) (log : ProcLog),
      parseLines (pre ++ badline :: post) lns log = parseLines (pre ++ post) lns log := by
  induction pre with
  | nil =>
    intro post lns log
    exact parseLines_skip h post lns log
  | cons hd tl ih =>
    intro post lns log
    simp only [List.cons_append]
    rcases hc : run_through_regexes regex_dict hd with e | parsed
    · simp only [parseLines, hc]
    · simp only [parseLines, hc]
      split
      · exact ih post _ _
      · split
        · split
          · exact ih post _ _
          · exact ih post _ _
        · exact ih post _ _

/-- When every record's name lacks `"exited"`, the scan falls through. -/
theorem scanExited_all_no (b : List CallRec)
    (h : ∀ r ∈ b, ∃ nm, r.get? 0 = some (some nm) ∧ strContains nm "exited" = false) :
    scanExited b = .ok none := by
  induction b with
  | nil => rfl
  | cons c rest ih =>
    obtain ⟨nm, h0, hno⟩ := h c (List.mem_cons_self _ _)
    simp only [scanExited, h0, hno]
    exact ih fun r hr => h r (List.mem_cons_of_mem _ hr)

/-- The scan stops at the first record whose name contains `"exited"` and
parses the last whitespace token of its detail field. -/
theorem scanExited_found (pre : List CallRec) :
    ∀ (c : CallRec) (post : List CallRec) (nm det tok : String),
    (∀ r ∈ pre, ∃ nm0, r.get? 0 = some (some nm0) ∧ strContains nm0 "exited" = false) →
    c.get? 0 = some (some nm) → strContains nm "exited" = true →
    c.get? 1 = some (some det) → (pyWSSplit det).getLast? = some tok →
    scanExited (pre ++ c :: post) = (pyInt tok).map some := by
  induction pre with
  | nil =>
    intro c post nm det tok _ h0 hyes h1 htok
    simp only [List.nil_append, scanExited, h0, hyes, h1, htok, if_true]
  | cons a tl ih =>
    intro c post nm det tok hpre h0 hyes h1 htok
    obtain ⟨nm0, ha0, hano⟩ := hpre a (List.mem_cons_self _ _)
    simp only [List.cons_append, scanExited, ha0, hano]
    exact ih c post nm det tok (fun r hr => hpre r (List.mem_cons_of_mem _ hr)) h0 hyes h1 htok

/-- On nonempty records the comprehension is an ordinary filter. -/
theorem filterCalls_eq {b : List CallRec} (h : ∀ c ∈ b, c ≠ []) (m : String) :
    filterCalls b m = .ok (b.filter (fun c => decide (c.get? 0 = some (some m)))) := by
  induction b with
  | nil => rfl
  | cons c rest ih =>
    have hne := h c (List.mem_cons_self _ _)
    have ih' := ih fun r hr => h r (List.mem_cons_of_mem _ hr)
    rcases c with _ | ⟨x, t⟩
    · exact absurd rfl hne
    · simp only [filterCalls, List.get?, ih']
      by_cases hx : x = some m
      · subst hx
        simp [List.filter, Except.map]
      · simp [List.filter, hx, Except.map]

/-- `get_status` never grows the `process_log` (the membership guard keeps
the `defaultdict` from inserting). -/
theorem get_status_log_unchanged (t : Trace) (p : String) :
    (get_status t p).2 = t.process_log := by
  unfold get_status
  by_cases h : (lookupLog t.process_log p).isNone
  · rw [if_pos h]
  · rw [if_neg h]
    rcases hl : lookupLog t.process_log p with _ | b
    · rw [hl] at h
      simp at h
    · simp [dd_getitem, hl]

/-- `lines_for_pid` never grows the `process_log`. -/
theorem lines_for_pid_log_unchanged (t : Trace) (p m : String) :
    (lines_for_pid t p m).2 = t.process_log := by
  unfold lines_for_pid
  by_cases h : (lookupLog t.process_log p).isNone
  · rw [if_pos h]
  · rw [if_neg h]
    rcases hl : lookupLog t.process_log p with _ | b
    · rw [hl] at h
      simp at h
    · by_cases hm : m = ""
      · rw [if_pos hm]
        simp [dd_getitem, hl]
      · rw [if_neg hm]
        simp [dd_getitem, hl]

/-! ## Output-shape helpers -/

theorem padConcat_length (x : List (Option String)) (k : Option String)
    (h34 : x.length = 3 ∨ x.length = 4) : (padToFour x ++ [k]).length = 5 := by
  rcases h34 with h | h
  · rw [padToFour_len3 h]
    simp [h]
  · rw [padToFour_len4 h]
    simp [h]

theorem padConcat_get?_lt (x : List (Option String)) (k : Option String)
    (h34 : x.length = 3 ∨ x.length = 4) (i : Nat) (hi : i < 3) :
    (padToFour x ++ [k]).get? i = x.get? i := by
  rcases h34 with h | h
  · rw [padToFour_len3 h, List.get?_append (by simp [h]; omega),
      List.get?_append (by omega)]
  · rw [padToFour_len4 h, List.get?_append (by omega)]

theorem padConcat_get?_3 (x : List (Option String)) (k : Option String)
    (h3 : x.length = 3) : (padToFour x ++ [k]).get? 3 = some none := by
  rw [padToFour_len3 h3, List.get?_append (by simp [h3]),
    List.get?_append_right (by omega), h3]
  rfl

theorem lookupLog_mem {log : ProcLog} {p : String} {b : List CallRec}
    (h : lookupLog log p = some b) : (p, b) ∈ log := by
  induction log with
  | nil => simp [lookupLog] at h
  | cons hd tl ih =>
    obtain ⟨a, c⟩ := hd
    by_cases hap : a = p
    · subst hap
      have hcb : some c = some b := by simpa [lookupLog] using h
      injection hcb with hcb
      rw [← hcb]
      exact List.mem_cons_self _ _
    · simp only [lookupLog, if_neg hap] at h
      exact List.mem_cons_of_mem _ (ih h)

theorem filterMap_pickFor (p : String) (lns : List CallRec) :
    lns.filterMap (pickFor p) =
      (lns.filter (fun r => decide (r.get? 0 = some (some p)))).map (List.drop 1) := by
  induction lns with
  | nil => rfl
  | cons l rest ih =>
    by_cases hc : l.get? 0 = some (some p)
    · have h1 : pickFor p l = some (l.drop 1) := by
        unfold pickFor
        rw [if_pos hc]
      rw [List.filterMap_cons, h1, List.filter_cons, if_pos (decide_eq_true hc)]
      simp [ih]
    · have h1 : pickFor p l = none := by
        unfold pickFor
        rw [if_neg hc]
      rw [List.filterMap_cons, h1, List.filter_cons, if_neg (by simpa using hc)]
      simp [ih]

/-! ## Claim C1 -/

/-- C1 counterexample: the raw log `"hello"` has an unparseable first line,
yet construction succeeds and returns a `Trace` with an empty `process_log`:
the fatal pid check only runs when the log has more than one line, so the
claim's "for every raw log" fails on one-line logs. -/
theorem c1_counterexample :
    parse_arbitrary "hello" pid_first_regex = none ∧
    buildTrace "hello" = .ok ⟨none, [], [], ["hello"], "hello"⟩ :=
  ⟨by decide, by decide⟩

/-- C1 (amended): for every raw log with MORE THAN ONE line whose first line
cannot be parsed with the leading-pid pattern, `Trace` construction raises
`Exception("First call of ltrace is not pid!")` immediately and no `Trace`
is returned; for logs of at most one line the check is skipped entirely. -/
theorem c1_theorem (raw : String)
    (hlen : 1 < (pySplitlines raw).length)
    (hfail : parse_arbitrary ((pySplitlines raw).headD "") pid_first_regex = none) :
    buildTrace raw = .error (.exception "First call of ltrace is not pid!") := by
  simp only [buildTrace, if_pos hlen, hfail]

/-- C1 witness: a concrete two-line log whose first line has no pid. -/
theorem c1_witness :
    (1 < (pySplitlines "abc\ndef").length ∧
      parse_arbitrary ((pySplitlines "abc\ndef").headD "") pid_first_regex = none) ∧
    buildTrace "abc\ndef" = .error (.exception "First call of ltrace is not pid!") :=
  ⟨⟨by decide, by decide⟩, c1_theorem "abc\ndef" (by decide) (by decide)⟩

/-! ## Claim C2 -/

/-- C2 counterexample: in `"123 foo(a -> b) = 5"` the stored args-field
`"a -> b"` contains `"->"` yet is stored UNCHANGED (it does not begin at
`"b"`): the arrow-stripping is not applied to the args-field. -/
theorem c2_counterexample :
    strContains "a -> b" "->" = true ∧
    afterArrow "a -> b" = " b" ∧
    run_through_regexes regex_dict "123 foo(a -> b) = 5" =
      .ok [some "123", some "foo", some "a -> b", some "5", some "function_call"] :=
  ⟨by decide, by decide, by decide⟩

/-- C2 (amended): for every line first-matched by a pattern of the table,
the `"->"` stripping is applied to the NAME field (the second captured group,
stored at index 1) — uniformly for all five kinds — while the args-field
(third group, index 2) is stored unchanged. -/
theorem c2_theorem (line k : String) (gs : List (Option String)) (g2 : String)
    (hmf : matchFirst regex_dict line = some (k, gs))
    (hg2 : gs.get? 1 = some (some g2)) :
    ∃ out, run_through_regexes regex_dict line = .ok out ∧
      out.get? 1 = some (some (afterArrow g2)) ∧
      out.get? 2 = gs.get? 2 ∧
      out.getLast? = some (some k) := by
  obtain ⟨re, hmem, hpm⟩ := matchFirst_mem hmf
  have hgood : GoodRe re := goodTbl_regex_dict _ hmem
  have hlen : gs.length = re.ngroups := pyMatch_length hpm
  have h34 : gs.length = 3 ∨ gs.length = 4 := by
    have h1 := hgood.1
    have h2 := hgood.2.1
    omega
  have hrun := (rtr_of_matchFirst goodTbl_regex_dict line).2 k gs g2 hmf hg2
  have h34s : (gs.set 1 (some (afterArrow g2))).length = 3 ∨
      (gs.set 1 (some (afterArrow g2))).length = 4 := by
    rw [List.length_set]
    exact h34
  refine ⟨_, hrun, ?_, ?_, List.getLast?_concat _⟩
  · rw [padConcat_get?_lt _ _ h34s 1 (by omega)]
    exact List.get?_set_eq_of_lt _ (by omega)
  · rw [padConcat_get?_lt _ _ h34s 2 (by omega)]
    exact List.get?_set_ne _ _ (by omega)

/-- C2 witness: a `resumed` line whose name-field contains `"->"`; the
stored name begins after the arrow and the args-field is untouched. -/
theorem c2_witness :
    matchFirst regex_dict "12 <... foo -> bar resumed> x = 3" =
      some ("resumed", [some "12", some "foo -> bar", some " x ", some "3"]) ∧
    afterArrow "foo -> bar" = " bar" ∧
    ∃ out, run_through_regexes regex_dict "12 <... foo -> bar resumed> x = 3" = .ok out ∧
      out.get? 1 = some (some (afterArrow "foo -> bar")) ∧
      out.get? 2 = [some "12", some "foo -> bar", some " x ", some "3"].get? 2 ∧
      out.getLast? = some (some "resumed") :=
  ⟨by decide, by decide,
    c2_theorem "12 <... foo -> bar resumed> x = 3" "resumed"
      [some "12", some "foo -> bar", some " x ", some "3"] "foo -> bar"
      (by decide) (by decide)⟩

/-! ## Claim C3 -/

/-- C3 counterexample: the trace of `"7 exited2(a) = 0"` contains no record
whose call name IS `"exited"`, so the claim promises `None`; but the scan
tests substring containment, `"exited2"` contains `"exited"`, and
`get_status` raises `ValueError` trying to parse `"a"` as an integer. -/
theorem c3_counterexample :
    buildTrace "7 exited2(a) = 0" =
      .ok ⟨none, [[some "7", some "exited2", some "a", some "0", some "function_call"]],
        [("7", [[some "exited2", some "a", some "0", some "function_call"]])],
        ["7 exited2(a) = 0"], "7 exited2(a) = 0"⟩ ∧
    ("exited2" ≠ "exited" ∧ strContains "exited2" "exited" = true) ∧
    (get_status ⟨none, [[some "7", some "exited2", some "a", some "0", some "function_call"]],
        [("7", [[some "exited2", some "a", some "0", some "function_call"]])],
        ["7 exited2(a) = 0"], "7 exited2(a) = 0"⟩ "7").1 = .error .valueError :=
  ⟨by decide, ⟨by decide, by decide⟩, by decide⟩

/-- C3 (amended): `get_status` scans for the FIRST record whose call name
CONTAINS `"exited"` as a substring (not string equality); when found it
parses the trailing whitespace-separated token of that record's detail text;
it returns `None` (without raising) when the pid is unknown or when no
record's name contains `"exited"`. -/
theorem c3_theorem (t : Trace) (p : String) :
    (lookupLog t.process_log p = none → (get_status t p).1 = .ok none) ∧
    (∀ b, lookupLog t.process_log p = some b →
      (∀ r ∈ b, ∃ nm, r.get? 0 = some (some nm) ∧ strContains nm "exited" = false) →
      (get_status t p).1 = .ok none) ∧
    (∀ b pre c post nm det tok, lookupLog t.process_log p = some b →
      b = pre ++ c :: post →
      (∀ r ∈ pre, ∃ nm0, r.get? 0 = some (some nm0) ∧ strContains nm0 "exited" = false) →
      c.get? 0 = some (some nm) → strContains nm "exited" = true →
      c.get? 1 = some (some det) → (pyWSSplit det).getLast? = some tok →
      (get_status t p).1 = (pyInt tok).map some) := by
  refine ⟨?_, ?_, ?_⟩
  · intro hnone
    unfold get_status
    rw [if_pos (by rw [hnone]; rfl)]
  · intro b hb hall
    unfold get_status
    rw [if_neg (by rw [hb]; simp)]
    simp only [dd_getitem, hb]
    exact scanExited_all_no b hall
  · intro b pre c post nm det tok hb hsplit hpre h0 hyes h1 htok
    unfold get_status
    rw [if_neg (by rw [hb]; simp)]
    simp only [dd_getitem, hb]
    rw [hsplit]
    exact scanExited_found pre c post nm det tok hpre h0 hyes h1 htok

/-- C3 witness: on the trace of `"3 +++ exited (status 1) +++"` the status
is 1, and an unknown pid yields `None`. -/
theorem c3_witness :
    (get_status ⟨none, [[some "3", some "exited ", some "status 1", none, some "special"]],
        [("3", [[some "exited ", some "status 1", none, some "special"]])],
        ["3 +++ exited (status 1) +++"], "3 +++ exited (status 1) +++"⟩ "999").1 = .ok none ∧
    (get_status ⟨none, [[some "3", some "exited ", some "status 1", none, some "special"]],
        [("3", [[some "exited ", some "status 1", none, some "special"]])],
        ["3 +++ exited (status 1) +++"], "3 +++ exited (status 1) +++"⟩ "3").1 = .ok (some 1) := by
  constructor
  · exact (c3_theorem _ "999").1 (by decide)
  · have h := (c3_theorem ⟨none,
        [[some "3", some "exited ", some "status 1", none, some "special"]],
        [("3", [[some "exited ", some "status 1", none, some "special"]])],
        ["3 +++ exited (status 1) +++"], "3 +++ exited (status 1) +++"⟩ "3").2.2
      [[some "exited ", some "status 1", none, some "special"]]
      [] [some "exited ", some "status 1", none, some "special"] []
      "exited " "status 1" "1"
      (by decide) (by decide) (by simp) (by decide) (by decide) (by decide) (by decide)
    rw [h]
    decide

/-! ## Claim C4 -/

/-- C4: for every line matching none of the five patterns the classifier
returns the 4-tuple of empty strings, and the parse loop stores nothing for
that line while continuing with the rest. -/
theorem c4_theorem (line : String)
    (h : ∀ kv ∈ regex_dict, pyMatch kv.2 line = none) :
    run_through_regexes regex_dict line = .ok sentinelNoMatch ∧
    (∀ pre post lns log,
      parseLines (pre ++ line :: post) lns log = parseLines (pre ++ post) lns log) := by
  have hs := rtr_all_none h
  exact ⟨hs, fun pre post lns log => parseLines_drop_middle hs pre post lns log⟩

/-- C4 witness: `"hello"` matches no pattern; it classifies to the sentinel
and dropping it from a log leaves parsing unchanged. -/
theorem c4_witness :
    (∀ kv ∈ regex_dict, pyMatch kv.2 "hello" = none) ∧
    run_through_regexes regex_dict "hello" = .ok sentinelNoMatch ∧
    parseLines ["9 a(x) = 1", "hello"] [] [] = parseLines ["9 a(x) = 1"] [] [] := by
  refine ⟨by decide, ( c4_theorem "hello" (by decide)).1, ?_⟩
  have h := ( c4_theorem "hello" (by decide)).2 ["9 a(x) = 1"] [] [] []
  simpa using h

/-! ## Claim C5 -/

/-- C5: `lines_for_pid` on a parsed trace: an unknown pid yields the empty
sequence (not an error); an empty match yields the pid's full call history in
raw-text order (the records of the flat ordered `lines` list with that pid,
pid column dropped); a non-empty match keeps exactly the records whose call
name equals `match` literally, preserving relative order. -/
theorem c5_theorem (raw : String) (t : Trace) (hok : buildTrace raw = .ok t)
    (p m : String) :
    (lookupLog t.process_log p = none → (lines_for_pid t p m).1 = .ok []) ∧
    ((lines_for_pid t p "").1 =
      .ok ((t.lines.filter (fun r => decide (r.get? 0 = some (some p)))).map (List.drop 1))) ∧
    (m ≠ "" → (lines_for_pid t p m).1 =
      .ok (((t.lines.filter (fun r => decide (r.get? 0 = some (some p)))).map
        (List.drop 1)).filter (fun c => decide (c.get? 0 = some (some m))))) := by
  obtain ⟨hmap, hkeys, hshapes⟩ := buildTrace_inv hok
  have hbucket : ∀ b, lookupLog t.process_log p = some b →
      b = (t.lines.filter (fun r => decide (r.get? 0 = some (some p)))).map (List.drop 1) := by
    intro b hl
    have hx := hmap p
    rw [hl] at hx
    simp only [Option.getD_some] at hx
    rw [hx, filterMap_pickFor]
  have hempty : lookupLog t.process_log p = none →
      (t.lines.filter (fun r => decide (r.get? 0 = some (some p)))).map (List.drop 1) = [] := by
    intro hl
    have hx := hmap p
    rw [hl] at hx
    simp only [Option.getD_none] at hx
    rw [← filterMap_pickFor, ← hx]
  refine ⟨?_, ?_, ?_⟩
  · intro hnone
    unfold lines_for_pid
    rw [if_pos (by rw [hnone]; rfl)]
  · rcases hl : lookupLog t.process_log p with _ | b
    · unfold lines_for_pid
      rw [if_pos (by rw [hl]; rfl)]
      rw [hempty hl]
    · unfold lines_for_pid
      rw [if_neg (by rw [hl]; simp), if_pos rfl]
      simp only [dd_getitem, hl]
      rw [hbucket b hl]
  · intro hm
    rcases hl : lookupLog t.process_log p with _ | b
    · unfold lines_for_pid
      rw [if_pos (by rw [hl]; rfl)]
      rw [hempty hl]
      rfl
    · unfold lines_for_pid
      rw [if_neg (by rw [hl]; simp), if_neg hm]
      simp only [dd_getitem, hl]
      have hne : ∀ c ∈ b, c ≠ [] := by
        intro c hc
        rw [hbucket b hl] at hc
        obtain ⟨l, hlmem, rfl⟩ := List.mem_map.mp hc
        have hlmem' := List.mem_filter.mp hlmem
        obtain ⟨hlen5, _, _⟩ := hshapes l hlmem'.1
        intro hnil
        have := congrArg List.length hnil
        rw [List.length_drop, hlen5] at this
        simp at this
      rw [filterCalls_eq hne m, hbucket b hl]

/-- C5 witness: order and filtering on a concrete three-line trace. -/
theorem c5_witness :
    (lines_for_pid ⟨some "9",
      [[some "9", some "a", some "x", some "1", some "function_call"],
       [some "9", some "b", some "y", some "2", some "function_call"],
       [some "9", some "a", some "z", some "3", some "function_call"]],
      [("9", [[some "a", some "x", some "1", some "function_call"],
              [some "b", some "y", some "2", some "function_call"],
              [some "a", some "z", some "3", some "function_call"]])],
      ["9 a(x) = 1", "9 b(y) = 2", "9 a(z) = 3"],
      "9 a(x) = 1\n9 b(y) = 2\n9 a(z) = 3"⟩ "999" "").1 = .ok [] ∧
    (lines_for_pid ⟨some "9",
      [[some "9", some "a", some "x", some "1", some "function_call"],
       [some "9", some "b", some "y", some "2", some "function_call"],
       [some "9", some "a", some "z", some "3", some "function_call"]],
      [("9", [[some "a", some "x", some "1", some "function_call"],
              [some "b", some "y", some "2", some "function_call"],
              [some "a", some "z", some "3", some "function_call"]])],
      ["9 a(x) = 1", "9 b(y) = 2", "9 a(z) = 3"],
      "9 a(x) = 1\n9 b(y) = 2\n9 a(z) = 3"⟩ "9" "").1 =
      .ok [[some "a", some "x", some "1", some "function_call"],
           [some "b", some "y", some "2", some "function_call"],
           [some "a", some "z", some "3", some "function_call"]] ∧
    (lines_for_pid ⟨some "9",
      [[some "9", some "a", some "x", some "1", some "function_call"],
       [some "9", some "b", some "y", some "2", some "function_call"],
       [some "9", some "a", some "z", some "3", some "function_call"]],
      [("9", [[some "a", some "x", some "1", some "function_call"],
              [some "b", some "y", some "2", some "function_call"],
              [some "a", some "z", some "3", some "function_call"]])],
      ["9 a(x) = 1", "9 b(y) = 2", "9 a(z) = 3"],
      "9 a(x) = 1\n9 b(y) = 2\n9 a(z) = 3"⟩ "9" "a").1 =
      .ok [[some "a", some "x", some "1", some "function_call"],
           [some "a", some "z", some "3", some "function_call"]] := by
  have h := c5_theorem "9 a(x) = 1\n9 b(y) = 2\n9 a(z) = 3"
    ⟨some "9",
      [[some "9", some "a", some "x", some "1", some "function_call"],
       [some "9", some "b", some "y", some "2", some "function_call"],
       [some "9", some "a", some "z", some "3", some "function_call"]],
      [("9", [[some "a", some "x", some "1", some "function_call"],
              [some "b", some "y", some "2", some "function_call"],
              [some "a", some "z", some "3", some "function_call"]])],
      ["9 a(x) = 1", "9 b(y) = 2", "9 a(z) = 3"],
      "9 a(x) = 1\n9 b(y) = 2\n9 a(z) = 3"⟩ (by decide)
  refine ⟨(h "999" "").1 (by decide), ?_, ?_⟩
  · rw [(h "9" "").2.1]
    decide
  · rw [(h "9" "a").2.2 (by decide)]
    decide

/-! ## Claim C6 -/

/-- C6: the classifier evaluates the patterns in the fixed order
resumed, unfinished, no_return, special, function_call with first-match-wins
semantics: the kind tag of the output is the key of the earliest matching
pattern; in particular a line matched by both `special` and `function_call`
(the first three failing) is tagged `special`. -/
theorem c6_theorem :
    (∀ line k gs, matchFirst regex_dict line = some (k, gs) →
      ∃ out, run_through_regexes regex_dict line = .ok out ∧
        out.getLast? = some (some k)) ∧
    (∀ line gsS gsF,
      pyMatch re_resumed line = none → pyMatch re_unfinished line = none →
      pyMatch re_no_return line = none → pyMatch re_special line = some gsS →
      pyMatch re_function_call line = some gsF →
      ∃ out, run_through_regexes regex_dict line = .ok out ∧
        out.getLast? = some (some "special")) := by
  have main : ∀ line k gs, matchFirst regex_dict line = some (k, gs) →
      ∃ out, run_through_regexes regex_dict line = .ok out ∧
        out.getLast? = some (some k) := by
    intro line k gs hmf
    obtain ⟨re, hmem, hpm⟩ := matchFirst_mem hmf
    have hgood : GoodRe re := goodTbl_regex_dict _ hmem
    obtain ⟨_, ⟨g2, hg2⟩, _⟩ := hgood.2.2 line gs hpm
    exact ⟨_, (rtr_of_matchFirst goodTbl_regex_dict line).2 k gs g2 hmf hg2,
      List.getLast?_concat _⟩
  refine ⟨main, ?_⟩
  intro line gsS gsF h1 h2 h3 h4 _
  have hmf : matchFirst regex_dict line = some ("special", gsS) := by
    simp only [regex_dict, matchFirst, h1, h2, h3, h4]
  exact main line "special" gsS hmf

/-- C6 witness: `"1 sig (x) = (done) +++"` matches both `special` and
`function_call` (and none of the first three) and is tagged `special`. -/
theorem c6_witness :
    pyMatch re_resumed "1 sig (x) = (done) +++" = none ∧
    pyMatch re_unfinished "1 sig (x) = (done) +++" = none ∧
    pyMatch re_no_return "1 sig (x) = (done) +++" = none ∧
    pyMatch re_special "1 sig (x) = (done) +++" =
      some [some "1", some "sig (x) = ", some "done"] ∧
    pyMatch re_function_call "1 sig (x) = (done) +++" =
      some [some "1", some "sig ", some "x", some "(done) +++"] ∧
    (∃ out, run_through_regexes regex_dict "1 sig (x) = (done) +++" = .ok out ∧
      out.getLast? = some (some "special")) :=
  ⟨by decide, by decide, by decide, by decide, by decide,
    c6_theorem.2 "1 sig (x) = (done) +++"
      [some "1", some "sig (x) = ", some "done"]
      [some "1", some "sig ", some "x", some "(done) +++"]
      (by decide) (by decide) (by decide) (by decide) (by decide)⟩

/-! ## Claim C7 -/

/-- C7: for every matched line the classifier's output is exactly the raw
captured groups padded with `None` to 4 fields plus the kind tag (a
5-element sequence); records of kind unfinished, no_return or special have
`None` as their 4th field; and a first-matching pattern capturing fewer than
3 groups makes the classifier fail with `ValueError` instead of producing a
record. -/
theorem c7_theorem :
    (∀ line k gs, matchFirst regex_dict line = some (k, gs) →
      ∃ out, run_through_regexes regex_dict line = .ok out ∧
        out.length = 5 ∧ out.getLast? = some (some k) ∧
        ((k = "unfinished" ∨ k = "no_return" ∨ k = "special") →
          out.get? 3 = some none)) ∧
    (∀ (tbl : List (String × Regex)) line k gs,
      matchFirst tbl line = some (k, gs) → gs.length < 3 →
      run_through_regexes tbl line = .error .valueError) := by
  constructor
  · intro line k gs hmf
    obtain ⟨re, hmem, hpm⟩ := matchFirst_mem hmf
    have hgood : GoodRe re := goodTbl_regex_dict _ hmem
    obtain ⟨_, ⟨g2, hg2⟩, _⟩ := hgood.2.2 line gs hpm
    have hrun := (rtr_of_matchFirst goodTbl_regex_dict line).2 k gs g2 hmf hg2
    have hlen : gs.length = re.ngroups := pyMatch_length hpm
    have h34 : gs.length = 3 ∨ gs.length = 4 := by
      have h1 := hgood.1
      have h2 := hgood.2.1
      omega
    have h34s : (gs.set 1 (some (afterArrow g2))).length = 3 ∨
        (gs.set 1 (some (afterArrow g2))).length = 4 := by
      rw [List.length_set]
      exact h34
    refine ⟨_, hrun, padConcat_length _ _ h34s, List.getLast?_concat _, ?_⟩
    intro hk3
    have hng : re.ngroups = 3 := by
      simp only [regex_dict, List.mem_cons, List.mem_singleton, Prod.mk.injEq] at hmem
      rcases hmem with ⟨hkk, rfl⟩ | ⟨hkk, rfl⟩ | ⟨hkk, rfl⟩ | ⟨hkk, rfl⟩ | ⟨hkk, rfl⟩ | hfalse
      · exfalso
        rw [hkk] at hk3
        rcases hk3 with h | h | h <;> exact absurd h (by decide)
      · rfl
      · rfl
      · rfl
      · exfalso
        rw [hkk] at hk3
        rcases hk3 with h | h | h <;> exact absurd h (by decide)
      · simp at hfalse
    exact padConcat_get?_3 _ _ (by rw [List.length_set, hlen, hng])
  · intro tbl line k gs hmf hlen
    exact rtr_short hmf hlen

/-- C7 witness: an `unfinished` line yields a 5-tuple with `None` 4th field,
and a 1-group toy pattern that matches trips the `ValueError` guard. -/
theorem c7_witness :
    matchFirst regex_dict "5 write(1, hi <unfinished ...>" =
      some ("unfinished", [some "5", some "write", some "1, hi "]) ∧
    (∃ out, run_through_regexes regex_dict "5 write(1, hi <unfinished ...>" = .ok out ∧
      out.length = 5 ∧ out.getLast? = some (some "unfinished") ∧
      (("unfinished" = "unfinished" ∨ ("unfinished" : String) = "no_return" ∨
        ("unfinished" : String) = "special") → out.get? 3 = some none)) ∧
    matchFirst [("toy", (⟨[.grp 1 (starAny true)], 1⟩ : Regex))] "x" =
      some ("toy", [some "x"]) ∧
    run_through_regexes [("toy", (⟨[.grp 1 (starAny true)], 1⟩ : Regex))] "x" =
      .error .valueError := by
  refine ⟨by decide, ?_, by decide, ?_⟩
  · exact c7_theorem.1 "5 write(1, hi <unfinished ...>" "unfinished"
      [some "5", some "write", some "1, hi "] (by decide)
  · exact c7_theorem.2 [("toy", (⟨[.grp 1 (starAny true)], 1⟩ : Regex))] "x"
      "toy" [some "x"] (by decide) (by decide)

/-! ## Claim C8 -/

/-- C8: a subprocess timeout during `Trace` construction is caught and not
surfaced: construction behaves exactly as a normal completion over the same
log-file contents, and succeeds whenever parsing the partial log succeeds. -/
theorem c8_theorem (log_contents : String) :
    trace_init .timedOut log_contents = trace_init .completed log_contents ∧
    (∀ t, buildTrace log_contents = .ok t →
      trace_init .timedOut log_contents = .ok t) :=
  ⟨rfl, fun _ h => h⟩

/-- C8 witness: a concrete partial log parsed after a timeout. -/
theorem c8_witness :
    trace_init .timedOut "8 foo(a) = 1" =
      .ok ⟨none, [[some "8", some "foo", some "a", some "1", some "function_call"]],
        [("8", [[some "foo", some "a", some "1", some "function_call"]])],
        ["8 foo(a) = 1"], "8 foo(a) = 1"⟩ :=
  ( c8_theorem "8 foo(a) = 1").2
    ⟨none, [[some "8", some "foo", some "a", some "1", some "function_call"]],
      [("8", [[some "foo", some "a", some "1", some "function_call"]])],
      ["8 foo(a) = 1"], "8 foo(a) = 1"⟩ (by decide)

/-! ## Claim C9 -/

/-- C9: `get_status` is not total: the trace of `"7 exited(one two) = 0"`
stores, as the first (and only) record whose name contains `"exited"`, a
record whose detail text's last whitespace token `"two"` is not an integer
literal, and `get_status` raises `ValueError` instead of returning `None`. -/
theorem c9_theorem :
    buildTrace "7 exited(one two) = 0" =
      .ok ⟨none, [[some "7", some "exited", some "one two", some "0", some "function_call"]],
        [("7", [[some "exited", some "one two", some "0", some "function_call"]])],
        ["7 exited(one two) = 0"], "7 exited(one two) = 0"⟩ ∧
    strContains "exited" "exited" = true ∧
    (pyWSSplit "one two").getLast? = some "two" ∧
    pyInt "two" = .error .valueError ∧
    (get_status ⟨none, [[some "7", some "exited", some "one two", some "0", some "function_call"]],
        [("7", [[some "exited", some "one two", some "0", some "function_call"]])],
        ["7 exited(one two) = 0"], "7 exited(one two) = 0"⟩ "7").1 = .error .valueError :=
  ⟨by decide, by decide, by decide, by decide, by decide⟩

/-! ## Claim C10 -/

/-- C10: after construction, every `process_log` key is a nonempty string of
decimal digits; every stored record has exactly 4 elements (the pid itself
excluded — the bucket is the pid's flat lines with the pid column dropped)
whose last element is one of the five kind tags; and the query operations
`get_status` and `lines_for_pid` leave `process_log` unchanged. -/
theorem c10_theorem (raw : String) (t : Trace) (hok : buildTrace raw = .ok t) :
    (∀ p b, lookupLog t.process_log p = some b →
      p ≠ "" ∧ p.toList.all isDigitChar = true ∧
      b = (t.lines.filter (fun r => decide (r.get? 0 = some (some p)))).map (List.drop 1) ∧
      (∀ r ∈ b, r.length = 4 ∧ ∃ k, r.getLast? = some (some k) ∧ k ∈ kindNames)) ∧
    (∀ p m, (get_status t p).2 = t.process_log ∧
      (lines_for_pid t p m).2 = t.process_log) := by
  obtain ⟨hmap, hkeys, hshapes⟩ := buildTrace_inv hok
  constructor
  · intro p b hl
    have hb : b = t.lines.filterMap (pickFor p) := by
      have hx := hmap p
      rw [hl] at hx
      simpa using hx
    obtain ⟨l, hlmem, hl0⟩ := hkeys (p, b) (lookupLog_mem hl)
    obtain ⟨hlen5, ⟨d, hd0, hdne, hdall⟩, _⟩ := hshapes l hlmem
    have hpd : p = d := by
      have := hl0.symm.trans hd0
      simpa using this
    refine ⟨by rw [hpd]; exact hdne, by rw [hpd]; exact hdall, ?_, ?_⟩
    · rw [hb]
      exact filterMap_pickFor p t.lines
    · intro r hr
      rw [hb] at hr
      obtain ⟨l', hl'mem, hpick⟩ := List.mem_filterMap.mp hr
      have hcond : l'.get? 0 = some (some p) ∧ r = l'.drop 1 := by
        unfold pickFor at hpick
        by_cases hc : l'.get? 0 = some (some p)
        · rw [if_pos hc] at hpick
          injection hpick with hpick
          exact ⟨hc, hpick.symm⟩
        · rw [if_neg hc] at hpick
          simp at hpick
      obtain ⟨hlen5', _, ⟨k, hkl, hkin⟩⟩ := hshapes l' hl'mem
      constructor
      · rw [hcond.2, List.length_drop, hlen5']
      · refine ⟨k, ?_, hkin⟩
        rw [hcond.2]
        rcases l' with _ | ⟨a, _ | ⟨b2, t2⟩⟩
        · simp at hlen5'
        · simp at hlen5'
        · exact hkl
  · intro p m
    exact ⟨get_status_log_unchanged t p, lines_for_pid_log_unchanged t p m⟩

/-- C10 witness: a concrete two-record trace. -/
theorem c10_witness :
    ("7" : String) ≠ "" ∧ ("7" : String).toList.all isDigitChar = true ∧
    [[some "a", some "b", some "1", some "function_call"],
     [some "exited ", some "status 0", none, some "special"]] =
      ((⟨some "7",
        [[some "7", some "a", some "b", some "1", some "function_call"],
         [some "7", some "exited ", some "status 0", none, some "special"]],
        [("7", [[some "a", some "b", some "1", some "function_call"],
                [some "exited ", some "status 0", none, some "special"]])],
        ["7 a(b) = 1", "7 +++ exited (status 0) +++"],
        "7 a(b) = 1\n7 +++ exited (status 0) +++"⟩ : Trace).lines.filter
          (fun r => decide (r.get? 0 = some (some "7")))).map (List.drop 1) ∧
    (∀ r ∈ [[some "a", some "b", some "1", some "function_call"],
            [some "exited ", some "status 0", none, some "special"]],
      r.length = 4 ∧ ∃ k, r.getLast? = some (some k) ∧ k ∈ kindNames) ∧
    (get_status (⟨some "7",
        [[some "7", some "a", some "b", some "1", some "function_call"],
         [some "7", some "exited ", some "status 0", none, some "special"]],
        [("7", [[some "a", some "b", some "1", some "function_call"],
                [some "exited ", some "status 0", none, some "special"]])],
        ["7 a(b) = 1", "7 +++ exited (status 0) +++"],
        "7 a(b) = 1\n7 +++ exited (status 0) +++"⟩ : Trace) "7").2 =
      [("7", [[some "a", some "b", some "1", some "function_call"],
              [some "exited ", some "status 0", none, some "special"]])] ∧
    (lines_for_pid (⟨some "7",
        [[some "7", some "a", some "b", some "1", some "function_call"],
         [some "7", some "exited ", some "status 0", none, some "special"]],
        [("7", [[some "a", some "b", some "1", some "function_call"],
                [some "exited ", some "status 0", none, some "special"]])],
        ["7 a(b) = 1", "7 +++ exited (status 0) +++"],
        "7 a(b) = 1\n7 +++ exited (status 0) +++"⟩ : Trace) "7" "a").2 =
      [("7", [[some "a", some "b", some "1", some "function_call"],
              [some "exited ", some "status 0", none, some "special"]])] := by
  have h := c10_theorem "7 a(b) = 1\n7 +++ exited (status 0) +++"
    ⟨some "7",
      [[some "7", some "a", some "b", some "1", some "function_call"],
       [some "7", some "exited ", some "status 0", none, some "special"]],
      [("7", [[some "a", some "b", some "1", some "function_call"],
              [some "exited ", some "status 0", none, some "special"]])],
      ["7 a(b) = 1", "7 +++ exited (status 0) +++"],
      "7 a(b) = 1\n7 +++ exited (status 0) +++"⟩ (by decide)
  obtain ⟨h1, h2, h3, h4⟩ := h.1 "7"
    [[some "a", some "b", some "1", some "function_call"],
     [some "exited ", some "status 0", none, some "special"]] (by decide)
  exact ⟨h1, h2, h3, h4, (h.2 "7" "a").1, (h.2 "7" "a").2⟩
